import Mathlib

/-!
# LexiconAI — verification of the linguistic-analysis orchestration core

Shallow embedding of the repository's core path:
`src/services/linguistic/service.py` (`LinguisticService.analyze_word`),
`src/services/linguistic/graph.py` (`process_analysis`, `app_graph`),
`src/services/linguistic/chains.py` (`analyze_word`),
`src/infrastructure/repositories/{base,dictionary,history}.py`,
and the three channel call sites (`app/routers/web.py`, `app/routers/linguistic.py`,
`bot/handlers.py`).

Python strings are `String` (a list of `Char`), machine side effects (database
session, generator invocation count) are threaded through an explicit
`WorldState`, fallible Python code returns `Except PyExc`, and injectable
infrastructure failures (SQLAlchemy errors raised by the storage engine) are
modelled by a `Faults` record carrying the underlying error detail strings.
-/

namespace LexiconAI

/-! ## Python exception model

`src/core/exceptions/base.py` defines `AppError(Exception)` whose `str` is its
`message` (it calls `super().__init__(message)`) and which carries a `code`.
`ValueError` is Python's builtin (pydantic's `ValidationError` is a subclass).
`other` stands for any remaining `Exception` (e.g. `SQLAlchemyError`), with its
`str` value. -/

inductive PyExc where
  | valueError (msg : String)
  | appError (code : String) (message : String)
  | other (msg : String)
deriving DecidableEq

/-- Python `str(e)`: for `AppError` this is the `message` passed to
`Exception.__init__`. -/
def PyExc.toStr : PyExc → String
  | .valueError m => m
  | .appError _ m => m
  | .other m => m

def PyExc.isValueError : PyExc → Bool
  | .valueError _ => true
  | _ => false

/-! ## Data model (`src/core/schemas.py`, `src/infrastructure/db/models.py`) -/

/-- `AssociationType(str, Enum)`: `SYNONYM = "synonym"`, `ANTONYM = "antonym"`. -/
inductive AssociationType where
  | synonym
  | antonym
deriving DecidableEq

/-- The string value of the `str`-enum member. -/
def AssociationType.value : AssociationType → String
  | .synonym => "synonym"
  | .antonym => "antonym"

/-- `ProcessingStatus(str, Enum)` from `src/core/schemas.py`. -/
inductive ProcessingStatus where
  | pending
  | processing
  | completed
  | failed
deriving DecidableEq

/-- Pydantic model `WordAssociation {word: str, type: AssociationType}`. -/
structure WordAssociation where
  word : String
  type : AssociationType
deriving DecidableEq

/-- The JSON object produced by `WordAssociation.model_dump()`:
`{"word": ..., "type": "synonym"|"antonym"}`. -/
structure DumpedItem where
  word : String
  type : String
deriving DecidableEq

def WordAssociation.model_dump (a : WordAssociation) : DumpedItem :=
  ⟨a.word, a.type.value⟩

/-- Pydantic validation performed by `WordAssociation(**item)`: the `type`
string must be a member of the `AssociationType` enum, otherwise a
`ValidationError` (a `ValueError` subclass) is raised. -/
def parseItem (d : DumpedItem) : Except PyExc WordAssociation :=
  if d.type = "synonym" then .ok ⟨d.word, .synonym⟩
  else if d.type = "antonym" then .ok ⟨d.word, .antonym⟩
  else .error (.valueError ("validation error for WordAssociation: " ++ d.type))

/-- The list comprehension `[WordAssociation(**item) for item in associations_data]`:
items are validated left to right, the first failure raises. -/
def parseItems : List DumpedItem → Except PyExc (List WordAssociation)
  | [] => .ok []
  | d :: ds =>
    match parseItem d with
    | .error e => .error e
    | .ok a =>
      match parseItems ds with
      | .error e => .error e
      | .ok rest => .ok (a :: rest)

/-- Row of table `word_dictionary` (`WordDictionary` model): `word` has a unique
index; `associations` is the JSONB value `{"items": [...]}` whose `items` list
we model directly. -/
structure CacheRow where
  word : String
  items : List DumpedItem
deriving DecidableEq

/-- Row of table `request_history` (`RequestHistory` model), restricted to the
fields the orchestrator writes: `source` and `original_text`. -/
structure HistoryRow where
  source : String
  original_text : String
deriving DecidableEq

/-- Mutable world: the two tables plus a ghost counter of generator
(`app_graph.ainvoke`) invocations. -/
structure WorldState where
  cache : List CacheRow
  history : List HistoryRow
  genCalls : Nat
deriving DecidableEq

/-- Injectable infrastructure failures: `some d` means the underlying storage
operation raises a `SQLAlchemyError` whose string is `d`. -/
structure Faults where
  lookupFail : Option String
  upsertFail : Option String
  historyFail : Option String
deriving DecidableEq

def noFaults : Faults := ⟨none, none, none⟩

/-! ## Normalization (`word.strip().lower()`, service.py line 63)

Python `str.strip()` removes leading/trailing whitespace; on the validated
input alphabet (Cyrillic letters, spaces, hyphens — `src/core/validators.py`)
the relevant whitespace is ASCII. Python `str.lower()` on that alphabet maps
ASCII `A`–`Z` and Cyrillic `А`–`Я`/`Ё` to their lowercase forms. -/

def pyIsSpace (c : Char) : Bool :=
  decide (c.toNat = 32) || decide (c.toNat = 9) || decide (c.toNat = 10) ||
    decide (c.toNat = 13) || decide (c.toNat = 11) || decide (c.toNat = 12)

def pyLowerChar (c : Char) : Char :=
  if 65 ≤ c.toNat ∧ c.toNat ≤ 90 then Char.ofNat (c.toNat + 32)
  else if 1040 ≤ c.toNat ∧ c.toNat ≤ 1071 then Char.ofNat (c.toNat + 32)
  else if c.toNat = 1025 then Char.ofNat 1105
  else c

def stripChars (l : List Char) : List Char :=
  ((l.dropWhile pyIsSpace).reverse.dropWhile pyIsSpace).reverse

def pyStrip (s : String) : String := ⟨stripChars s.data⟩

def pyLower (s : String) : String := ⟨s.data.map pyLowerChar⟩

/-- `word.strip().lower()` — the cache-key normalization. -/
def normalize (s : String) : String := pyLower (pyStrip s)

/-! ## Generator: `chains.py` `analyze_word` behind `graph.py` `process_analysis`

The behavior of the external backend call `analysis_chain.ainvoke({"word": w})`
is a parameter: it either returns a structured `AnalysisResponse` or raises. -/

/-- Pydantic schema `AnalysisResponse` of `chains.py`. -/
structure AnalysisResponse where
  is_exists : Bool
  synonyms : List String
  antonyms : List String
deriving DecidableEq

inductive BackendBehavior where
  | respond (r : AnalysisResponse)
  | raiseExc (e : PyExc)
deriving DecidableEq

/-- `chains.analyze_word(word)`: raises `ValueError` when the backend says the
word does not exist, re-raises `ValueError`s, and wraps every other exception
into `ExternalAPIError(message="Ошибка при обращении к AI сервису")`. -/
def chains_analyze_word (backend : BackendBehavior) (word : String) :
    Except PyExc (List WordAssociation) :=
  match backend with
  | .raiseExc e =>
    if e.isValueError then .error e
    else .error (.appError "external_api_error" "Ошибка при обращении к AI сервису")
  | .respond r =>
    if !r.is_exists then
      .error (.valueError ("Слово \x27" ++ word ++ "\x27 не найдено в русском языке."))
    else
      .ok (r.synonyms.map (fun s => ⟨s, .synonym⟩) ++
           r.antonyms.map (fun a => ⟨a, .antonym⟩))

/-- The partial state update a LangGraph node returns: a dict containing either
the `result` key or the `error` key. -/
inductive NodeUpdate where
  | resultUpdate (r : List WordAssociation)
  | errorUpdate (msg : String)
deriving DecidableEq

/-- `graph.process_analysis`: calls `chains.analyze_word` and converts any
exception into the `error` field of the state (`except Exception`). The
codomain keeps an exception channel to express that the node itself never
raises. -/
def process_analysis (backend : BackendBehavior) (word : String) :
    Except PyExc NodeUpdate :=
  match chains_analyze_word backend word with
  | .ok result => .ok (.resultUpdate result)
  | .error e => .ok (.errorUpdate e.toStr)

/-- `GraphState` after `app_graph.ainvoke`. -/
structure GraphState where
  word : String
  result : Option (List WordAssociation)
  error : Option String
deriving DecidableEq

/-- `app_graph.ainvoke(inputs)` with `inputs = {"word": w, "result": None,
"error": None}`: runs the single `analyzer` node and merges its returned keys
into the state. -/
def app_graph_ainvoke (backend : BackendBehavior) (w : String) :
    Except PyExc GraphState :=
  match process_analysis backend w with
  | .error e => .error e
  | .ok (.resultUpdate r) => .ok ⟨w, some r, none⟩
  | .ok (.errorUpdate m) => .ok ⟨w, none, some m⟩

/-! ## Repositories -/

/-- `DictionaryRepository.get_by_word`: `select(...).where(word == w)` then
`.first()`. The query itself is not wrapped: a `SQLAlchemyError` propagates
raw. -/
def get_by_word (f : Faults) (st : WorldState) (w : String) :
    Except PyExc (Option CacheRow) :=
  match f.lookupFail with
  | some d => .error (.other d)
  | none => .ok (st.cache.find? (fun row => row.word == w))

/-- Pure effect of the `INSERT ... ON CONFLICT (word) DO UPDATE` statement on
the `word_dictionary` table. -/
def upsertCache (cache : List CacheRow) (w : String) (items : List DumpedItem) :
    List CacheRow :=
  if cache.any (fun row => row.word == w) then
    cache.map (fun row => if row.word == w then ⟨w, items⟩ else row)
  else cache ++ [⟨w, items⟩]

/-- `DictionaryRepository.upsert`: on `SQLAlchemyError` the session is rolled
back and `DatabaseError(message="Ошибка при сохранении слова в БД",
details={"error": str(e)})` is raised — the detail string goes only into
`details`, not into the message. -/
def dictionary_upsert (f : Faults) (st : WorldState) (w : String)
    (items : List DumpedItem) : Except PyExc WorldState :=
  match f.upsertFail with
  | some _ => .error (.appError "database_error" "Ошибка при сохранении слова в БД")
  | none => .ok ⟨upsertCache st.cache w items, st.history, st.genCalls⟩

/-- `HistoryRepository.create` (inherited `BaseRepository.create`): on
`SQLAlchemyError` the session is rolled back and
`DatabaseError(message="Ошибка при создании записи в БД", ...)` is raised. -/
def history_create (f : Faults) (st : WorldState) (source original_text : String) :
    Except PyExc WorldState :=
  match f.historyFail with
  | some _ => .error (.appError "database_error" "Ошибка при создании записи в БД")
  | none => .ok ⟨st.cache, st.history ++ [⟨source, original_text⟩], st.genCalls⟩

/-! ## The orchestrator (`LinguisticService.analyze_word`) -/

/-- The dict returned by `analyze_word`: exactly the keys `result`, `error`,
`status`. -/
structure AnalyzeResult where
  result : Option (List WordAssociation)
  error : Option String
  status : ProcessingStatus
deriving DecidableEq

/-- Python truthiness of the `result_data` list (`if result_data:`): `None`
and `[]` are falsy. -/
def truthyList : Option (List WordAssociation) → Bool
  | none => false
  | some l => !l.isEmpty

/-- Python truthiness of the `error_data` string (`if not error_data`): `None`
and `""` are falsy. -/
def truthyStr : Option String → Bool
  | none => false
  | some s => !s.data.isEmpty

/-- The `try:` block of `analyze_word` (service.py lines 67–113), with `word`
already normalized. Returns the raised exception or the result dict, together
with the world state at the moment control leaves the block (each repository
operation commits or rolls back independently). -/
def analyze_word_try (backend : BackendBehavior) (f : Faults) (st : WorldState)
    (word source : String) : Except PyExc AnalyzeResult × WorldState :=
  match get_by_word f st word with
  | .error e => (.error e, st)
  | .ok (some cached_entry) =>
    match parseItems cached_entry.items with
    | .error e => (.error e, st)
    | .ok associations =>
      match history_create f st source word with
      | .error e => (.error e, st)
      | .ok st1 => (.ok ⟨some associations, none, .completed⟩, st1)
  | .ok none =>
    let stG : WorldState := ⟨st.cache, st.history, st.genCalls + 1⟩
    match app_graph_ainvoke backend word with
    | .error e => (.error e, stG)
    | .ok result_state =>
      let result_data := result_state.result
      let error_data := result_state.error
      let afterCache : Except PyExc WorldState :=
        if truthyList result_data then
          dictionary_upsert f stG word
            ((result_data.getD []).map WordAssociation.model_dump)
        else .ok stG
      match afterCache with
      | .error e => (.error e, stG)
      | .ok st2 =>
        match history_create f st2 source word with
        | .error e => (.error e, st2)
        | .ok st3 =>
          (.ok ⟨result_data, error_data,
            if truthyStr error_data then .failed else .completed⟩, st3)

/-- The error string the three `except` clauses of `analyze_word` put into the
returned dict: `except ValueError` → `str(e)`, `except AppError` →
`e.message`, `except Exception` → the generic internal-error message. -/
def handlerError : PyExc → String
  | .valueError m => m
  | .appError _ m => m
  | .other _ => "Произошла внутренняя ошибка при анализе слова"

/-- `LinguisticService.analyze_word(word, source)`: normalizes the input
(line 63 — note this rebinds `word`, so the later `original_text=word` stores
the normalized text), runs the `try:` block, and converts caught exceptions per
the three `except` clauses into a `FAILED` dict with `result=None`. -/
def analyze_word (backend : BackendBehavior) (f : Faults) (st : WorldState)
    (rawWord source : String) : AnalyzeResult × WorldState :=
  let word := normalize rawWord
  match analyze_word_try backend f st word source with
  | (.ok r, st1) => (r, st1)
  | (.error e, st1) => (⟨none, some (handlerError e), .failed⟩, st1)

/-! ## Channel call sites -/

/-- `WordValidator.is_cyrillic` (`src/core/validators.py`): nonempty and every
character matches `[а-яёА-ЯЁ\s-]`. -/
def is_cyrillic_char (c : Char) : Bool :=
  (decide (1072 ≤ c.toNat) && decide (c.toNat ≤ 1103)) ||
    decide (c.toNat = 1105) ||
    (decide (1040 ≤ c.toNat) && decide (c.toNat ≤ 1071)) ||
    decide (c.toNat = 1025) || pyIsSpace c || decide (c.toNat = 45)

def is_cyrillic (s : String) : Bool :=
  !s.data.isEmpty && s.data.all is_cyrillic_char

inductive Channel where
  | web
  | api
  | bot
deriving DecidableEq

/-- The `source` string each channel passes to `analyze_word`:
`web.py` line 53, `linguistic.py` line 44, `handlers.py` line 77. -/
def channelSource : Channel → String
  | .web => "web"
  | .api => "api"
  | .bot => "telegram"

/-- The input preprocessing each channel applies before calling the service:
the web form passes the text through unchanged, the API router pre-normalizes
(`request.text.strip().lower()`), the bot strips (`message.text.strip()`). -/
def channelPreprocess : Channel → String → String
  | .web => fun text => text
  | .api => fun text => normalize text
  | .bot => fun text => pyStrip text

/-- Channel validation gate before the service is called: the web router and
the bot check `is_cyrillic` (the bot additionally rejects words longer than
50 characters); the API router's request schema validates `is_cyrillic` via
its pydantic field validator. `none` means the service is never invoked. -/
def channel_analyze (c : Channel) (backend : BackendBehavior) (f : Faults)
    (st : WorldState) (text : String) : Option (AnalyzeResult × WorldState) :=
  match c with
  | .web =>
    if is_cyrillic text then
      some (analyze_word backend f st (channelPreprocess .web text) (channelSource .web))
    else none
  | .api =>
    if is_cyrillic text then
      some (analyze_word backend f st (channelPreprocess .api text) (channelSource .api))
    else none
  | .bot =>
    if is_cyrillic (pyStrip text) && decide ((pyStrip text).data.length ≤ 50) then
      some (analyze_word backend f st (channelPreprocess .bot text) (channelSource .bot))
    else none

/-! ## Auxiliary observable quantities -/

/-- Number of cache rows stored under a given key. -/
def countKey (cache : List CacheRow) (k : String) : Nat :=
  (cache.filter (fun row => row.word == k)).length

def exceptOk (x : Except PyExc (List WordAssociation)) : Bool :=
  match x with
  | .ok _ => true
  | .error _ => false

/-- Every cached row deserializes: true of every state reachable through
`analyze_word`, since rows are only written from `model_dump` output. -/
def cacheWellFormed (cache : List CacheRow) : Bool :=
  cache.all (fun row => exceptOk (parseItems row.items))

end LexiconAI

namespace LexiconAI

/-! ## Helper lemmas: characters and normalization -/

theorem toNat_ofNat_lt {n : Nat} (h : n < 55296) : (Char.ofNat n).toNat = n := by
  rw [Char.ofNat, dif_pos (Or.inl h)]
  rfl

theorem pyIsSpace_eq_false {c : Char} (h : 33 ≤ c.toNat) : pyIsSpace c = false := by
  simp only [pyIsSpace, Bool.or_eq_false_iff, decide_eq_false_iff_not]
  omega

theorem pyIsSpace_pyLowerChar (c : Char) : pyIsSpace (pyLowerChar c) = pyIsSpace c := by
  unfold pyLowerChar
  split
  · next h =>
    rw [pyIsSpace_eq_false (by rw [toNat_ofNat_lt (by omega)]; omega),
      pyIsSpace_eq_false (by omega)]
  · split
    · next h =>
      rw [pyIsSpace_eq_false (by rw [toNat_ofNat_lt (by omega)]; omega),
        pyIsSpace_eq_false (by omega)]
    · split
      · next h =>
        rw [pyIsSpace_eq_false (by rw [toNat_ofNat_lt (by omega)]; omega),
          pyIsSpace_eq_false (by omega)]
      · rfl

theorem dropWhile_eq_nil_of_all {p : Char → Bool} {l : List Char}
    (h : ∀ c ∈ l, p c = true) : l.dropWhile p = [] := by
  induction l with
  | nil => rfl
  | cons a t ih =>
    simp only [List.dropWhile, h a (by simp)]
    exact ih (fun c hc => h c (by simp [hc]))

theorem dropWhile_append_all {p : Char → Bool} {l₁ l₂ : List Char}
    (h : ∀ c ∈ l₁, p c = true) : (l₁ ++ l₂).dropWhile p = l₂.dropWhile p := by
  induction l₁ with
  | nil => rfl
  | cons a t ih =>
    simp only [List.cons_append, List.dropWhile, h a (by simp)]
    exact ih (fun c hc => h c (by simp [hc]))

theorem dropWhile_append_cases (p : Char → Bool) (l l₂ : List Char) :
    (l ++ l₂).dropWhile p = l.dropWhile p ++ l₂ ∨
      (l.dropWhile p = [] ∧ (l ++ l₂).dropWhile p = l₂.dropWhile p) := by
  induction l with
  | nil => right; exact ⟨rfl, rfl⟩
  | cons a t ih =>
    by_cases hpa : p a = true
    · simpa only [List.cons_append, List.dropWhile, hpa] using ih
    · left
      simp only [List.cons_append, List.dropWhile, Bool.not_eq_true] at hpa ⊢
      simp [hpa]

theorem map_dropWhile_pyLower (l : List Char) :
    (l.dropWhile pyIsSpace).map pyLowerChar =
      (l.map pyLowerChar).dropWhile pyIsSpace := by
  induction l with
  | nil => rfl
  | cons a t ih =>
    simp only [List.map_cons, List.dropWhile, pyIsSpace_pyLowerChar a]
    cases hpa : pyIsSpace a with
    | true => simpa using ih
    | false => simp

theorem stripChars_pad {ws₁ ws₂ l : List Char}
    (h₁ : ∀ c ∈ ws₁, pyIsSpace c = true) (h₂ : ∀ c ∈ ws₂, pyIsSpace c = true) :
    stripChars (ws₁ ++ l ++ ws₂) = stripChars l := by
  unfold stripChars
  rw [List.append_assoc, dropWhile_append_all h₁]
  rcases dropWhile_append_cases pyIsSpace l ws₂ with hc | ⟨hnil, hc⟩
  · rw [hc, List.reverse_append, dropWhile_append_all]
    intro c hc'
    exact h₂ c (List.mem_reverse.mp hc')
  · rw [hc, hnil, dropWhile_eq_nil_of_all h₂]

theorem stripChars_map_pyLower (l : List Char) :
    (stripChars l).map pyLowerChar = stripChars (l.map pyLowerChar) := by
  unfold stripChars
  rw [List.map_reverse, map_dropWhile_pyLower, List.map_reverse,
    map_dropWhile_pyLower]

theorem normalize_pad_case {ws₁ ws₂ : List Char} {v w : String}
    (h₁ : ∀ c ∈ ws₁, pyIsSpace c = true) (h₂ : ∀ c ∈ ws₂, pyIsSpace c = true)
    (hcase : v.data.map pyLowerChar = w.data.map pyLowerChar) :
    normalize ⟨ws₁ ++ v.data ++ ws₂⟩ = normalize w := by
  unfold normalize pyLower pyStrip
  simp only
  rw [stripChars_pad h₁ h₂, stripChars_map_pyLower, stripChars_map_pyLower, hcase]

/-! ## Helper lemmas: serialization round trip -/

theorem parseItem_model_dump (a : WordAssociation) :
    parseItem a.model_dump = .ok a := by
  cases a with
  | mk word ty => cases ty <;> rfl

theorem parseItems_map_dump (l : List WordAssociation) :
    parseItems (l.map WordAssociation.model_dump) = .ok l := by
  induction l with
  | nil => rfl
  | cons a t ih => simp [parseItems, parseItem_model_dump, ih]

/-! ## Helper lemmas: cache table operations -/

theorem find?_append_none {α : Type} {p : α → Bool} {l₁ l₂ : List α}
    (h : l₁.find? p = none) : (l₁ ++ l₂).find? p = l₂.find? p := by
  induction l₁ with
  | nil => rfl
  | cons a t ih =>
    cases hpa : p a with
    | true => simp [List.find?_cons, hpa] at h
    | false =>
      simp only [List.find?_cons, hpa] at h
      rw [List.cons_append]
      simp only [List.find?_cons, hpa]
      exact ih h

theorem any_eq_false_of_find?_none {α : Type} {p : α → Bool} {l : List α}
    (h : l.find? p = none) : l.any p = false := by
  rw [List.find?_eq_none] at h
  simp only [List.any_eq_false]
  intro x hx
  simpa using h x hx

theorem filter_eq_nil_of_find?_none {α : Type} {p : α → Bool} {l : List α}
    (h : l.find? p = none) : l.filter p = [] := by
  rw [List.find?_eq_none] at h
  rw [List.filter_eq_nil_iff]
  intro x hx
  simpa using h x hx

theorem upsertCache_of_miss {cache : List CacheRow} {k : String}
    (h : cache.find? (fun row => row.word == k) = none) (items : List DumpedItem) :
    upsertCache cache k items = cache ++ [⟨k, items⟩] := by
  unfold upsertCache
  rw [any_eq_false_of_find?_none h]
  simp

theorem find?_upsertCache_of_miss {cache : List CacheRow} {k : String}
    (h : cache.find? (fun row => row.word == k) = none) (items : List DumpedItem) :
    (upsertCache cache k items).find? (fun row => row.word == k) =
      some ⟨k, items⟩ := by
  rw [upsertCache_of_miss h, find?_append_none h]
  simp [List.find?_cons]

theorem countKey_upsertCache_of_miss {cache : List CacheRow} {k : String}
    (h : cache.find? (fun row => row.word == k) = none) (items : List DumpedItem) :
    countKey (upsertCache cache k items) k = 1 := by
  rw [upsertCache_of_miss h]
  unfold countKey
  rw [List.filter_append, filter_eq_nil_of_find?_none h]
  simp [List.filter_cons]

/-! ## Helper lemmas: reductions of `analyze_word` on the main scenarios -/

theorem hit_reduction (backend : BackendBehavior) (f : Faults) (st : WorldState)
    (w src : String) (row : CacheRow) (assocs : List WordAssociation)
    (h1 : f.lookupFail = none)
    (h2 : st.cache.find? (fun r => r.word == normalize w) = some row)
    (h3 : parseItems row.items = .ok assocs)
    (h4 : f.historyFail = none) :
    analyze_word backend f st w src =
      (⟨some assocs, none, .completed⟩,
       ⟨st.cache, st.history ++ [⟨src, normalize w⟩], st.genCalls⟩) := by
  simp [analyze_word, analyze_word_try, get_by_word, history_create, h1, h2, h3, h4]

theorem miss_gen_ok_reduction (backend : BackendBehavior) (f : Faults)
    (st : WorldState) (w src : String) (l : List WordAssociation)
    (h1 : f.lookupFail = none)
    (h2 : st.cache.find? (fun r => r.word == normalize w) = none)
    (hg : chains_analyze_word backend (normalize w) = .ok l)
    (hl : l ≠ [])
    (h3 : f.upsertFail = none)
    (h4 : f.historyFail = none) :
    analyze_word backend f st w src =
      (⟨some l, none, .completed⟩,
       ⟨upsertCache st.cache (normalize w) (l.map WordAssociation.model_dump),
        st.history ++ [⟨src, normalize w⟩], st.genCalls + 1⟩) := by
  simp [analyze_word, analyze_word_try, get_by_word, history_create,
    dictionary_upsert, app_graph_ainvoke, process_analysis, h1, h2, h3, h4, hg,
    truthyList, truthyStr, hl]

theorem miss_gen_empty_reduction (backend : BackendBehavior) (f : Faults)
    (st : WorldState) (w src : String)
    (h1 : f.lookupFail = none)
    (h2 : st.cache.find? (fun r => r.word == normalize w) = none)
    (hg : chains_analyze_word backend (normalize w) = .ok [])
    (h4 : f.historyFail = none) :
    analyze_word backend f st w src =
      (⟨some [], none, .completed⟩,
       ⟨st.cache, st.history ++ [⟨src, normalize w⟩], st.genCalls + 1⟩) := by
  simp [analyze_word, analyze_word_try, get_by_word, history_create,
    app_graph_ainvoke, process_analysis, h1, h2, h4, hg, truthyList, truthyStr]

theorem miss_gen_err_reduction (backend : BackendBehavior) (f : Faults)
    (st : WorldState) (w src : String) (e : PyExc)
    (h1 : f.lookupFail = none)
    (h2 : st.cache.find? (fun r => r.word == normalize w) = none)
    (hg : chains_analyze_word backend (normalize w) = .error e)
    (he : e.toStr.data.isEmpty = false)
    (h4 : f.historyFail = none) :
    analyze_word backend f st w src =
      (⟨none, some e.toStr, .failed⟩,
       ⟨st.cache, st.history ++ [⟨src, normalize w⟩], st.genCalls + 1⟩) := by
  simp [analyze_word, analyze_word_try, get_by_word, history_create,
    app_graph_ainvoke, process_analysis, h1, h2, h4, hg, truthyList, truthyStr, he]

theorem analyze_of_try_error (backend : BackendBehavior) (f : Faults)
    (st : WorldState) (w src : String) (e : PyExc) (st1 : WorldState)
    (h : analyze_word_try backend f st (normalize w) src = (.error e, st1)) :
    analyze_word backend f st w src = (⟨none, some (handlerError e), .failed⟩, st1) := by
  simp [analyze_word, h]

/-! ## Helper lemmas: universal facts by exhaustive case analysis -/

theorem history_evolution (backend : BackendBehavior) (f : Faults)
    (st : WorldState) (w src : String) :
    (analyze_word backend f st w src).2.history = st.history ∨
      (analyze_word backend f st w src).2.history =
        st.history ++ [⟨src, normalize w⟩] := by
  cases hlf : f.lookupFail with
  | some d => left; simp [analyze_word, analyze_word_try, get_by_word, hlf]
  | none =>
    cases hfind : st.cache.find? (fun r => r.word == normalize w) with
    | some row =>
      cases hp : parseItems row.items with
      | error e =>
        left
        simp [analyze_word, analyze_word_try, get_by_word, hlf, hfind, hp]
      | ok assocs =>
        cases hhf : f.historyFail with
        | some d =>
          left
          simp [analyze_word, analyze_word_try, get_by_word, history_create,
            hlf, hfind, hp, hhf]
        | none =>
          right
          simp [analyze_word, analyze_word_try, get_by_word, history_create,
            hlf, hfind, hp, hhf]
    | none =>
      cases hg : chains_analyze_word backend (normalize w) with
      | error e =>
        cases hhf : f.historyFail with
        | some d =>
          left
          simp [analyze_word, analyze_word_try, get_by_word, app_graph_ainvoke,
            process_analysis, history_create, truthyList, hlf, hfind, hg, hhf]
        | none =>
          right
          simp [analyze_word, analyze_word_try, get_by_word, app_graph_ainvoke,
            process_analysis, history_create, truthyList, hlf, hfind, hg, hhf]
      | ok l =>
        cases l with
        | nil =>
          cases hhf : f.historyFail with
          | some d =>
            left
            simp [analyze_word, analyze_word_try, get_by_word, app_graph_ainvoke,
              process_analysis, history_create, truthyList, hlf, hfind, hg, hhf]
          | none =>
            right
            simp [analyze_word, analyze_word_try, get_by_word, app_graph_ainvoke,
              process_analysis, history_create, truthyList, hlf, hfind, hg, hhf]
        | cons a t =>
          cases huf : f.upsertFail with
          | some d =>
            left
            simp [analyze_word, analyze_word_try, get_by_word, app_graph_ainvoke,
              process_analysis, dictionary_upsert, truthyList, hlf, hfind, hg, huf]
          | none =>
            cases hhf : f.historyFail with
            | some d =>
              left
              simp [analyze_word, analyze_word_try, get_by_word, app_graph_ainvoke,
                process_analysis, dictionary_upsert, history_create, truthyList,
                hlf, hfind, hg, huf, hhf]
            | none =>
              right
              simp [analyze_word, analyze_word_try, get_by_word, app_graph_ainvoke,
                process_analysis, dictionary_upsert, history_create, truthyList,
                hlf, hfind, hg, huf, hhf]

theorem cache_evolution (backend : BackendBehavior) (f : Faults)
    (st : WorldState) (w src : String) :
    (analyze_word backend f st w src).2.cache = st.cache ∨
      ∃ l, chains_analyze_word backend (normalize w) = .ok l ∧ l ≠ [] ∧
        f.upsertFail = none ∧
        (analyze_word backend f st w src).2.cache =
          upsertCache st.cache (normalize w) (l.map WordAssociation.model_dump) := by
  cases hlf : f.lookupFail with
  | some d => left; simp [analyze_word, analyze_word_try, get_by_word, hlf]
  | none =>
    cases hfind : st.cache.find? (fun r => r.word == normalize w) with
    | some row =>
      cases hp : parseItems row.items with
      | error e =>
        left
        simp [analyze_word, analyze_word_try, get_by_word, hlf, hfind, hp]
      | ok assocs =>
        cases hhf : f.historyFail with
        | some d =>
          left
          simp [analyze_word, analyze_word_try, get_by_word, history_create,
            hlf, hfind, hp, hhf]
        | none =>
          left
          simp [analyze_word, analyze_word_try, get_by_word, history_create,
            hlf, hfind, hp, hhf]
    | none =>
      cases hg : chains_analyze_word backend (normalize w) with
      | error e =>
        cases hhf : f.historyFail with
        | some d =>
          left
          simp [analyze_word, analyze_word_try, get_by_word, app_graph_ainvoke,
            process_analysis, history_create, truthyList, hlf, hfind, hg, hhf]
        | none =>
          left
          simp [analyze_word, analyze_word_try, get_by_word, app_graph_ainvoke,
            process_analysis, history_create, truthyList, hlf, hfind, hg, hhf]
      | ok l =>
        cases l with
        | nil =>
          cases hhf : f.historyFail with
          | some d =>
            left
            simp [analyze_word, analyze_word_try, get_by_word, app_graph_ainvoke,
              process_analysis, history_create, truthyList, hlf, hfind, hg, hhf]
          | none =>
            left
            simp [analyze_word, analyze_word_try, get_by_word, app_graph_ainvoke,
              process_analysis, history_create, truthyList, hlf, hfind, hg, hhf]
        | cons a t =>
          cases huf : f.upsertFail with
          | some d =>
            left
            simp [analyze_word, analyze_word_try, get_by_word, app_graph_ainvoke,
              process_analysis, dictionary_upsert, truthyList, hlf, hfind, hg, huf]
          | none =>
            cases hhf : f.historyFail with
            | some d =>
              right
              refine ⟨a :: t, rfl, by simp, rfl, ?_⟩
              simp [analyze_word, analyze_word_try, get_by_word, app_graph_ainvoke,
                process_analysis, dictionary_upsert, history_create, truthyList,
                hlf, hfind, hg, huf, hhf]
            | none =>
              right
              refine ⟨a :: t, rfl, by simp, rfl, ?_⟩
              simp [analyze_word, analyze_word_try, get_by_word, app_graph_ainvoke,
                process_analysis, dictionary_upsert, history_create, truthyList,
                hlf, hfind, hg, huf, hhf]

theorem genCalls_on_miss (backend : BackendBehavior) (f : Faults)
    (st : WorldState) (w src : String)
    (h1 : f.lookupFail = none)
    (h2 : st.cache.find? (fun r => r.word == normalize w) = none) :
    (analyze_word backend f st w src).2.genCalls = st.genCalls + 1 := by
  cases hg : chains_analyze_word backend (normalize w) with
  | error e =>
    cases hhf : f.historyFail with
    | some d =>
      simp [analyze_word, analyze_word_try, get_by_word, app_graph_ainvoke,
        process_analysis, history_create, truthyList, h1, h2, hg, hhf]
    | none =>
      simp [analyze_word, analyze_word_try, get_by_word, app_graph_ainvoke,
        process_analysis, history_create, truthyList, h1, h2, hg, hhf]
  | ok l =>
    cases l with
    | nil =>
      cases hhf : f.historyFail with
      | some d =>
        simp [analyze_word, analyze_word_try, get_by_word, app_graph_ainvoke,
          process_analysis, history_create, truthyList, h1, h2, hg, hhf]
      | none =>
        simp [analyze_word, analyze_word_try, get_by_word, app_graph_ainvoke,
          process_analysis, history_create, truthyList, h1, h2, hg, hhf]
    | cons a t =>
      cases huf : f.upsertFail with
      | some d =>
        simp [analyze_word, analyze_word_try, get_by_word, app_graph_ainvoke,
          process_analysis, dictionary_upsert, truthyList, h1, h2, hg, huf]
      | none =>
        cases hhf : f.historyFail with
        | some d =>
          simp [analyze_word, analyze_word_try, get_by_word, app_graph_ainvoke,
            process_analysis, dictionary_upsert, history_create, truthyList,
            h1, h2, hg, huf, hhf]
        | none =>
          simp [analyze_word, analyze_word_try, get_by_word, app_graph_ainvoke,
            process_analysis, dictionary_upsert, history_create, truthyList,
            h1, h2, hg, huf, hhf]

theorem status_totality (backend : BackendBehavior) (f : Faults)
    (st : WorldState) (w src : String) :
    (analyze_word backend f st w src).1.status = .completed ∨
      (analyze_word backend f st w src).1.status = .failed := by
  cases hlf : f.lookupFail with
  | some d => right; simp [analyze_word, analyze_word_try, get_by_word, hlf, handlerError]
  | none =>
    cases hfind : st.cache.find? (fun r => r.word == normalize w) with
    | some row =>
      cases hp : parseItems row.items with
      | error e =>
        right
        simp [analyze_word, analyze_word_try, get_by_word, hlf, hfind, hp]
      | ok assocs =>
        cases hhf : f.historyFail with
        | some d =>
          right
          simp [analyze_word, analyze_word_try, get_by_word, history_create,
            hlf, hfind, hp, hhf]
        | none =>
          left
          simp [analyze_word, analyze_word_try, get_by_word, history_create,
            hlf, hfind, hp, hhf]
    | none =>
      cases hg : chains_analyze_word backend (normalize w) with
      | error e =>
        cases hhf : f.historyFail with
        | some d =>
          right
          simp [analyze_word, analyze_word_try, get_by_word, app_graph_ainvoke,
            process_analysis, history_create, truthyList, hlf, hfind, hg, hhf]
        | none =>
          cases hb : e.toStr.data.isEmpty with
          | true =>
            left
            simp [analyze_word, analyze_word_try, get_by_word, app_graph_ainvoke,
              process_analysis, history_create, truthyList, truthyStr,
              hlf, hfind, hg, hhf, hb]
          | false =>
            right
            simp [analyze_word, analyze_word_try, get_by_word, app_graph_ainvoke,
              process_analysis, history_create, truthyList, truthyStr,
              hlf, hfind, hg, hhf, hb]
      | ok l =>
        cases l with
        | nil =>
          cases hhf : f.historyFail with
          | some d =>
            right
            simp [analyze_word, analyze_word_try, get_by_word, app_graph_ainvoke,
              process_analysis, history_create, truthyList, hlf, hfind, hg, hhf]
          | none =>
            left
            simp [analyze_word, analyze_word_try, get_by_word, app_graph_ainvoke,
              process_analysis, history_create, truthyList, truthyStr,
              hlf, hfind, hg, hhf]
        | cons a t =>
          cases huf : f.upsertFail with
          | some d =>
            right
            simp [analyze_word, analyze_word_try, get_by_word, app_graph_ainvoke,
              process_analysis, dictionary_upsert, truthyList, hlf, hfind, hg, huf]
          | none =>
            cases hhf : f.historyFail with
            | some d =>
              right
              simp [analyze_word, analyze_word_try, get_by_word, app_graph_ainvoke,
                process_analysis, dictionary_upsert, history_create, truthyList,
                hlf, hfind, hg, huf, hhf]
            | none =>
              left
              simp [analyze_word, analyze_word_try, get_by_word, app_graph_ainvoke,
                process_analysis, dictionary_upsert, history_create, truthyList,
                truthyStr, hlf, hfind, hg, huf, hhf]

theorem list_isEmpty_false_of_ne_nil {α : Type} {l : List α} (h : l ≠ []) :
    l.isEmpty = false := by
  cases l with
  | nil => exact absurd rfl h
  | cons a t => rfl

theorem notFound_msg_data_ne_nil (w : String) :
    ("Слово \x27" ++ w ++ "\x27 не найдено в русском языке.").data ≠ [] := by
  rw [String.data_append, String.data_append]
  intro h
  rcases List.append_eq_nil.mp h with ⟨h1, _⟩
  rcases List.append_eq_nil.mp h1 with ⟨h2, _⟩
  exact absurd h2 (by decide)

/-! ## The claims -/

/-- C1: the `CacheEntry` invariant is preserved by `analyze`. For every run of
the orchestrator, either the `word_dictionary` table is left untouched, or the
generator returned a non-empty association list `l` for the normalized word
and the table change is exactly the upsert of `l`'s serialized form under the
normalized key. In particular, whenever generation fails (word not found or
backend error), no cache entry is created or modified. -/
theorem claim_C1_cache_entry_invariant (backend : BackendBehavior) (f : Faults)
    (st : WorldState) (w src : String) :
    ((analyze_word backend f st w src).2.cache = st.cache ∨
      ∃ l, chains_analyze_word backend (normalize w) = .ok l ∧ l ≠ [] ∧
        (analyze_word backend f st w src).2.cache =
          upsertCache st.cache (normalize w) (l.map WordAssociation.model_dump)) ∧
    (∀ e, chains_analyze_word backend (normalize w) = .error e →
      (analyze_word backend f st w src).2.cache = st.cache) := by
  constructor
  · rcases cache_evolution backend f st w src with h | ⟨l, hg, hl, _, hc⟩
    · exact Or.inl h
    · exact Or.inr ⟨l, hg, hl, hc⟩
  · intro e he
    rcases cache_evolution backend f st w src with h | ⟨l, hg, _, _, _⟩
    · exact h
    · rw [he] at hg
      simp at hg

/-- Witness for C1 at a concrete input: the generator reports «да» as not
found, and the cache is left empty. -/
theorem claim_C1_cache_entry_invariant_witness :
    chains_analyze_word (.respond ⟨false, [], []⟩) (normalize "да") =
      .error (.valueError "Слово \x27да\x27 не найдено в русском языке.") ∧
    (analyze_word (.respond ⟨false, [], []⟩) noFaults ⟨[], [], 0⟩ "да" "web").2.cache =
      ([] : List CacheRow) :=
  ⟨rfl,
   (claim_C1_cache_entry_invariant (.respond ⟨false, [], []⟩) noFaults
      ⟨[], [], 0⟩ "да" "web").2
     (.valueError "Слово \x27да\x27 не найдено в русском языке.") rfl⟩

/-- C2: on a cache hit (the normalized form has a matching, deserializable
`word_dictionary` row) with working storage, `analyze` never invokes the
generator (`genCalls` unchanged), returns the stored associations with status
`COMPLETED` and `error = None`, and appends exactly one history record. -/
theorem claim_C2_cache_hit (backend : BackendBehavior) (f : Faults)
    (st : WorldState) (w src : String) (row : CacheRow)
    (assocs : List WordAssociation)
    (h1 : f.lookupFail = none)
    (h2 : st.cache.find? (fun r => r.word == normalize w) = some row)
    (h3 : parseItems row.items = .ok assocs)
    (h4 : f.historyFail = none) :
    analyze_word backend f st w src =
      (⟨some assocs, none, .completed⟩,
       ⟨st.cache, st.history ++ [⟨src, normalize w⟩], st.genCalls⟩) :=
  hit_reduction backend f st w src row assocs h1 h2 h3 h4

/-- Witness for C2 at a concrete input: «Да» hits the cached entry for «да»;
the generator behavior is an exception that is never reached. -/
theorem claim_C2_cache_hit_witness :
    ((⟨[⟨"да", [⟨"угу", "synonym"⟩]⟩], [], 5⟩ : WorldState).cache.find?
        (fun r => r.word == normalize "Да") = some ⟨"да", [⟨"угу", "synonym"⟩]⟩) ∧
    parseItems [⟨"угу", "synonym"⟩] = .ok [⟨"угу", .synonym⟩] ∧
    analyze_word (.raiseExc (.other "backend down")) noFaults
        ⟨[⟨"да", [⟨"угу", "synonym"⟩]⟩], [], 5⟩ "Да" "web" =
      (⟨some [⟨"угу", .synonym⟩], none, .completed⟩,
       ⟨[⟨"да", [⟨"угу", "synonym"⟩]⟩], [⟨"web", "да"⟩], 5⟩) := by
  refine ⟨rfl, rfl, ?_⟩
  exact claim_C2_cache_hit _ _ _ _ _ _ _ rfl rfl rfl rfl

/-- C6 counterexample: `analyze("ФДЫВА ", "web")` with a generator reporting a
non-existent word appends one history record whose `original_text` is the
normalized «фдыва», which differs from the raw input «ФДЫВА » — the claim that
`original_text` stores the raw pre-normalization input fails on the code
(service.py line 63 rebinds `word` before line 104 stores it). -/
theorem claim_C6_original_text_counterexample :
    (analyze_word (.respond ⟨false, [], []⟩) noFaults ⟨[], [], 0⟩
        "ФДЫВА " "web").2.history = [⟨"web", "фдыва"⟩] ∧
    (⟨"web", "фдыва"⟩ : HistoryRow) ≠ ⟨"web", "ФДЫВА "⟩ := by
  constructor
  · decide
  · decide

/-- C6 amended: for every request, the history record appended (when one is
appended) stores in `original_text` the normalized (trimmed, lowercased) text
— the same form used for cache keying — not the raw input; in particular
`analyze("ФДЫВА ", "web")` with a generator reporting a non-existent word
appends one history record with `original_text = "фдыва"` and creates no
cache entry. -/
theorem claim_C6_normalized_original_text (backend : BackendBehavior)
    (f : Faults) (st : WorldState) (w src : String) :
    ((analyze_word backend f st w src).2.history = st.history ∨
      (analyze_word backend f st w src).2.history =
        st.history ++ [⟨src, normalize w⟩]) ∧
    analyze_word (.respond ⟨false, [], []⟩) noFaults ⟨[], [], 0⟩ "ФДЫВА " "web" =
      (⟨none, some "Слово \x27фдыва\x27 не найдено в русском языке.", .failed⟩,
       ⟨[], [⟨"web", "фдыва"⟩], 1⟩) :=
  ⟨history_evolution backend f st w src, by decide⟩

/-- C7: the graph node `process_analysis` is total — for every backend
behavior (structured response, word-not-found, or any raised exception) it
never lets an exception escape, returning either the association list or the
error variant carrying a message. -/
theorem claim_C7_generator_never_raises (backend : BackendBehavior) (w : String) :
    ∃ u, process_analysis backend w = .ok u ∧
      ((∃ l, u = .resultUpdate l) ∨ ∃ m, u = .errorUpdate m) := by
  cases hg : chains_analyze_word backend w with
  | ok l =>
    exact ⟨.resultUpdate l, by simp [process_analysis, hg], Or.inl ⟨l, rfl⟩⟩
  | error e =>
    exact ⟨.errorUpdate e.toStr, by simp [process_analysis, hg], Or.inr ⟨e.toStr, rfl⟩⟩

/-- C3: cache round trip. After a miss with successful non-empty generation
(against working storage), exactly one `word_dictionary` row exists for the
normalized key and it holds precisely the serialized generator output; a
second call — for any input with the same normalized form — is a hit that
returns those same associations without touching the generator; and any
variant differing from the word only by leading/trailing whitespace or letter
case resolves to the same cache key. -/
theorem claim_C3_round_trip (backend backend2 : BackendBehavior) (f2 : Faults)
    (st : WorldState) (w src src2 : String) (l : List WordAssociation)
    (hmiss : st.cache.find? (fun r => r.word == normalize w) = none)
    (hg : chains_analyze_word backend (normalize w) = .ok l)
    (hl : l ≠ [])
    (h2l : f2.lookupFail = none)
    (h2h : f2.historyFail = none) :
    countKey (analyze_word backend noFaults st w src).2.cache (normalize w) = 1 ∧
    ((analyze_word backend noFaults st w src).2.cache.find?
        (fun r => r.word == normalize w) =
      some ⟨normalize w, l.map WordAssociation.model_dump⟩) ∧
    (∀ w2, normalize w2 = normalize w →
      analyze_word backend2 f2 (analyze_word backend noFaults st w src).2 w2 src2 =
        (⟨some l, none, .completed⟩,
         ⟨(analyze_word backend noFaults st w src).2.cache,
          (analyze_word backend noFaults st w src).2.history ++ [⟨src2, normalize w⟩],
          (analyze_word backend noFaults st w src).2.genCalls⟩)) ∧
    (∀ (ws₁ ws₂ : List Char) (v : String), (∀ c ∈ ws₁, pyIsSpace c = true) →
      (∀ c ∈ ws₂, pyIsSpace c = true) →
      v.data.map pyLowerChar = w.data.map pyLowerChar →
      normalize ⟨ws₁ ++ v.data ++ ws₂⟩ = normalize w) := by
  have hrun := miss_gen_ok_reduction backend noFaults st w src l rfl hmiss hg hl rfl rfl
  refine ⟨?_, ?_, ?_, ?_⟩
  · rw [hrun]
    exact countKey_upsertCache_of_miss hmiss _
  · rw [hrun]
    exact find?_upsertCache_of_miss hmiss _
  · intro w2 hw2
    rw [hrun]
    have hfind2 : (upsertCache st.cache (normalize w)
        (l.map WordAssociation.model_dump)).find?
        (fun r => r.word == normalize w2) =
        some ⟨normalize w, l.map WordAssociation.model_dump⟩ := by
      rw [hw2]
      exact find?_upsertCache_of_miss hmiss _
    have hred := hit_reduction backend2 f2
      ⟨upsertCache st.cache (normalize w) (l.map WordAssociation.model_dump),
       st.history ++ [⟨src, normalize w⟩], st.genCalls + 1⟩ w2 src2
      ⟨normalize w, l.map WordAssociation.model_dump⟩ l h2l hfind2
      (parseItems_map_dump l) h2h
    rw [hred, hw2]
  · intro ws₁ ws₂ v h₁ h₂ hc
    exact normalize_pad_case h₁ h₂ hc

/-- Witness for C3 at a concrete input: «Счастье» is generated and cached;
the repeat call « СЧАСТЬЕ » (differing in case and whitespace) is a hit that
never consults its (broken) backend. -/
theorem claim_C3_round_trip_witness :
    (([] : List CacheRow).find? (fun r => r.word == normalize "Счастье") = none) ∧
    chains_analyze_word (.respond ⟨true, ["радость"], ["горе"]⟩)
        (normalize "Счастье") = .ok [⟨"радость", .synonym⟩, ⟨"горе", .antonym⟩] ∧
    countKey (analyze_word (.respond ⟨true, ["радость"], ["горе"]⟩) noFaults
        ⟨[], [], 0⟩ "Счастье" "api").2.cache (normalize "Счастье") = 1 ∧
    analyze_word (.raiseExc (.other "down")) noFaults
        (analyze_word (.respond ⟨true, ["радость"], ["горе"]⟩) noFaults
          ⟨[], [], 0⟩ "Счастье" "api").2 " СЧАСТЬЕ " "bot" =
      (⟨some [⟨"радость", .synonym⟩, ⟨"горе", .antonym⟩], none, .completed⟩,
       ⟨(analyze_word (.respond ⟨true, ["радость"], ["горе"]⟩) noFaults
           ⟨[], [], 0⟩ "Счастье" "api").2.cache,
        (analyze_word (.respond ⟨true, ["радость"], ["горе"]⟩) noFaults
           ⟨[], [], 0⟩ "Счастье" "api").2.history ++ [⟨"bot", normalize "Счастье"⟩],
        (analyze_word (.respond ⟨true, ["радость"], ["горе"]⟩) noFaults
           ⟨[], [], 0⟩ "Счастье" "api").2.genCalls⟩) := by
  have h := claim_C3_round_trip (.respond ⟨true, ["радость"], ["горе"]⟩)
    (.raiseExc (.other "down")) noFaults ⟨[], [], 0⟩ "Счастье" "api" "bot"
    [⟨"радость", .synonym⟩, ⟨"горе", .antonym⟩] rfl rfl (by decide) rfl rfl
  exact ⟨rfl, rfl, h.1, h.2.2.1 " СЧАСТЬЕ " (by decide)⟩

/-- C4: when generation fails on a cache miss (the backend reports the word
does not exist, or the backend call raises a non-`ValueError` exception) and
storage works, `analyze` still appends exactly one history record and returns
`FAILED` carrying the generator's error message. -/
theorem claim_C4_generation_failure (backend : BackendBehavior) (f : Faults)
    (st : WorldState) (w src : String)
    (h1 : f.lookupFail = none)
    (h2 : st.cache.find? (fun r => r.word == normalize w) = none)
    (h4 : f.historyFail = none) :
    (∀ r, backend = .respond r → r.is_exists = false →
      analyze_word backend f st w src =
        (⟨none,
          some ("Слово \x27" ++ normalize w ++ "\x27 не найдено в русском языке."),
          .failed⟩,
         ⟨st.cache, st.history ++ [⟨src, normalize w⟩], st.genCalls + 1⟩)) ∧
    (∀ e, backend = .raiseExc e → e.isValueError = false →
      analyze_word backend f st w src =
        (⟨none, some "Ошибка при обращении к AI сервису", .failed⟩,
         ⟨st.cache, st.history ++ [⟨src, normalize w⟩], st.genCalls + 1⟩)) := by
  constructor
  · intro r hb hex
    subst hb
    have hg : chains_analyze_word (.respond r) (normalize w) =
        .error (.valueError
          ("Слово \x27" ++ normalize w ++ "\x27 не найдено в русском языке.")) := by
      simp [chains_analyze_word, hex]
    exact miss_gen_err_reduction _ f st w src _ h1 h2 hg
      (list_isEmpty_false_of_ne_nil (notFound_msg_data_ne_nil (normalize w))) h4
  · intro e hb hnv
    subst hb
    have hg : chains_analyze_word (.raiseExc e) (normalize w) =
        .error (.appError "external_api_error" "Ошибка при обращении к AI сервису") := by
      simp [chains_analyze_word, hnv]
    exact miss_gen_err_reduction _ f st w src _ h1 h2 hg (by decide) h4

/-- Witness for C4 at a concrete input: the «ФДЫВА » scenario — word not
found, one history record appended, `FAILED` with the generator's message. -/
theorem claim_C4_generation_failure_witness :
    (([] : List CacheRow).find? (fun r => r.word == normalize "ФДЫВА ") = none) ∧
    analyze_word (.respond ⟨false, [], []⟩) noFaults ⟨[], [], 0⟩ "ФДЫВА " "web" =
      (⟨none, some "Слово \x27фдыва\x27 не найдено в русском языке.", .failed⟩,
       ⟨[], [⟨"web", "фдыва"⟩], 1⟩) := by
  have h := (claim_C4_generation_failure (.respond ⟨false, [], []⟩) noFaults
    ⟨[], [], 0⟩ "ФДЫВА " "web" rfl rfl rfl).1 ⟨false, [], []⟩ rfl rfl
  exact ⟨rfl, h.trans (by decide)⟩

/-- C5: infrastructure failures short-circuit. (1) A storage error in the
cache lookup yields `FAILED` with the generic internal-error message, the
world (history included) untouched. (2) A storage error in the cache upsert
(after a miss and non-empty generation) yields `FAILED` with the constant
`DatabaseError` message, no history written. (3) A storage error in the
history write yields `FAILED` with the constant `DatabaseError` message and no
history record. In every case the returned message is a fixed constant that
does not mention the underlying detail `d`. -/
theorem claim_C5_infrastructure_failure (backend : BackendBehavior)
    (st : WorldState) (w src d : String) (uf hf : Option String)
    (l : List WordAssociation) :
    (analyze_word backend ⟨some d, uf, hf⟩ st w src =
      (⟨none, some "Произошла внутренняя ошибка при анализе слова", .failed⟩, st)) ∧
    (st.cache.find? (fun r => r.word == normalize w) = none →
      chains_analyze_word backend (normalize w) = .ok l → l ≠ [] →
      analyze_word backend ⟨none, some d, hf⟩ st w src =
        (⟨none, some "Ошибка при сохранении слова в БД", .failed⟩,
         ⟨st.cache, st.history, st.genCalls + 1⟩)) ∧
    (cacheWellFormed st.cache = true →
      (analyze_word backend ⟨none, none, some d⟩ st w src).1 =
        ⟨none, some "Ошибка при создании записи в БД", .failed⟩ ∧
      (analyze_word backend ⟨none, none, some d⟩ st w src).2.history = st.history) := by
  refine ⟨?_, ?_, ?_⟩
  · simp [analyze_word, analyze_word_try, get_by_word, handlerError]
  · intro hmiss hg hl
    simp [analyze_word, analyze_word_try, get_by_word, app_graph_ainvoke,
      process_analysis, dictionary_upsert, truthyList, handlerError, hmiss, hg,
      list_isEmpty_false_of_ne_nil hl]
  · intro hwf
    cases hfind : st.cache.find? (fun r => r.word == normalize w) with
    | some row =>
      have hrowmem : row ∈ st.cache := List.mem_of_find?_eq_some hfind
      have hokb : exceptOk (parseItems row.items) = true := by
        have hall := List.all_eq_true.mp hwf
        exact hall row hrowmem
      obtain ⟨assocs, hp⟩ : ∃ a, parseItems row.items = .ok a := by
        cases hpe : parseItems row.items with
        | ok a => exact ⟨a, rfl⟩
        | error e =>
          rw [hpe] at hokb
          simp [exceptOk] at hokb
      constructor <;>
        simp [analyze_word, analyze_word_try, get_by_word, history_create,
          handlerError, hfind, hp]
    | none =>
      cases hg : chains_analyze_word backend (normalize w) with
      | error e =>
        constructor <;>
          simp [analyze_word, analyze_word_try, get_by_word, app_graph_ainvoke,
            process_analysis, history_create, truthyList, handlerError, hfind, hg]
      | ok l2 =>
        cases l2 with
        | nil =>
          constructor <;>
            simp [analyze_word, analyze_word_try, get_by_word, app_graph_ainvoke,
              process_analysis, history_create, truthyList, handlerError, hfind, hg]
        | cons a t =>
          constructor <;>
            simp [analyze_word, analyze_word_try, get_by_word, app_graph_ainvoke,
              process_analysis, dictionary_upsert, history_create, truthyList,
              handlerError, hfind, hg]

/-- Witness for C5 at concrete inputs: a lookup failure, an upsert failure,
and a history-write failure, each returning its constant message with no
history record appended. -/
theorem claim_C5_infrastructure_failure_witness :
    (([] : List CacheRow).find? (fun r => r.word == normalize "да") = none) ∧
    chains_analyze_word (.respond ⟨true, ["угу"], []⟩) (normalize "да") =
      .ok [⟨"угу", .synonym⟩] ∧
    cacheWellFormed ([] : List CacheRow) = true ∧
    analyze_word (.respond ⟨true, ["угу"], []⟩) ⟨some "conn refused", none, none⟩
        ⟨[], [], 0⟩ "да" "web" =
      (⟨none, some "Произошла внутренняя ошибка при анализе слова", .failed⟩,
       ⟨[], [], 0⟩) ∧
    analyze_word (.respond ⟨true, ["угу"], []⟩) ⟨none, some "disk full", none⟩
        ⟨[], [], 0⟩ "да" "web" =
      (⟨none, some "Ошибка при сохранении слова в БД", .failed⟩, ⟨[], [], 1⟩) ∧
    (analyze_word (.respond ⟨true, ["угу"], []⟩) ⟨none, none, some "disk full"⟩
        ⟨[], [], 0⟩ "да" "web").2.history = ([] : List HistoryRow) := by
  have h1 := (claim_C5_infrastructure_failure (.respond ⟨true, ["угу"], []⟩)
    ⟨[], [], 0⟩ "да" "web" "conn refused" none none [⟨"угу", .synonym⟩]).1
  have h2 := (claim_C5_infrastructure_failure (.respond ⟨true, ["угу"], []⟩)
    ⟨[], [], 0⟩ "да" "web" "disk full" none none [⟨"угу", .synonym⟩]).2.1
    rfl rfl (by decide)
  have h3 := (claim_C5_infrastructure_failure (.respond ⟨true, ["угу"], []⟩)
    ⟨[], [], 0⟩ "да" "web" "disk full" none none [⟨"угу", .synonym⟩]).2.2 rfl
  exact ⟨rfl, rfl, rfl, h1, h2, h3.2⟩

/-- C8 counterexample: a chat-bot request persists a history record whose
`source` is `"telegram"` (`bot/handlers.py` line 77), which is not one of
`"web"`, `"api"`, `"bot"` — the claimed three-value set is wrong on the
code. -/
theorem claim_C8_source_counterexample :
    channel_analyze .bot (.respond ⟨false, [], []⟩) noFaults ⟨[], [], 0⟩ "да" =
      some (⟨none, some "Слово \x27да\x27 не найдено в русском языке.", .failed⟩,
        ⟨[], [⟨"telegram", "да"⟩], 1⟩) ∧
    ¬ ((("telegram" : String) = "web") ∨ (("telegram" : String) = "api") ∨
        (("telegram" : String) = "bot")) := by
  constructor
  · decide
  · decide

/-- C8 amended: every channel passes one of exactly the three source strings
`"web"`, `"api"`, `"telegram"` to the orchestrator, and every history record a
channel-triggered request appends carries that channel's source string. -/
theorem claim_C8_source_values (c : Channel) (backend : BackendBehavior)
    (f : Faults) (st : WorldState) (text : String) :
    (channelSource c = "web" ∨ channelSource c = "api" ∨
      channelSource c = "telegram") ∧
    (∀ out, channel_analyze c backend f st text = some out →
      out.2.history = st.history ∨
        ∃ ot, out.2.history = st.history ++ [⟨channelSource c, ot⟩]) := by
  constructor
  · cases c
    · exact Or.inl rfl
    · exact Or.inr (Or.inl rfl)
    · exact Or.inr (Or.inr rfl)
  · intro out hout
    cases c with
    | web =>
      simp only [channel_analyze] at hout
      split at hout
      · rw [Option.some_inj] at hout
        rcases history_evolution backend f st (channelPreprocess .web text)
            (channelSource .web) with h | h
        · left
          rw [← hout]
          exact h
        · right
          refine ⟨normalize (channelPreprocess .web text), ?_⟩
          rw [← hout]
          exact h
      · exact absurd hout (by simp)
    | api =>
      simp only [channel_analyze] at hout
      split at hout
      · rw [Option.some_inj] at hout
        rcases history_evolution backend f st (channelPreprocess .api text)
            (channelSource .api) with h | h
        · left
          rw [← hout]
          exact h
        · right
          refine ⟨normalize (channelPreprocess .api text), ?_⟩
          rw [← hout]
          exact h
      · exact absurd hout (by simp)
    | bot =>
      simp only [channel_analyze] at hout
      split at hout
      · rw [Option.some_inj] at hout
        rcases history_evolution backend f st (channelPreprocess .bot text)
            (channelSource .bot) with h | h
        · left
          rw [← hout]
          exact h
        · right
          refine ⟨normalize (channelPreprocess .bot text), ?_⟩
          rw [← hout]
          exact h
      · exact absurd hout (by simp)

/-- Witness for C8 (amended) at a concrete input: the bot channel appends a
record with source `"telegram"`. -/
theorem claim_C8_source_values_witness :
    channel_analyze .bot (.respond ⟨false, [], []⟩) noFaults ⟨[], [], 0⟩ "да" =
      some (⟨none, some "Слово \x27да\x27 не найдено в русском языке.", .failed⟩,
        ⟨[], [⟨"telegram", "да"⟩], 1⟩) ∧
    (channelSource .bot = "web" ∨ channelSource .bot = "api" ∨
      channelSource .bot = "telegram") ∧
    (([⟨"telegram", "да"⟩] : List HistoryRow) = [] ∨
      ∃ ot, ([⟨"telegram", "да"⟩] : List HistoryRow) =
        [] ++ [⟨channelSource .bot, ot⟩]) := by
  have h := claim_C8_source_values .bot (.respond ⟨false, [], []⟩) noFaults
    ⟨[], [], 0⟩ "да"
  exact ⟨by decide, h.1,
    h.2 (⟨none, some "Слово \x27да\x27 не найдено в русском языке.", .failed⟩,
      ⟨[], [⟨"telegram", "да"⟩], 1⟩) (by decide)⟩

/-- C9: on a cache miss where the backend says the word exists but returns
empty synonym and antonym lists, `analyze` returns `COMPLETED` with an empty
association list and `error = None`, yet writes no cache entry; a later call
for any input with the same normalized form misses the cache again and
invokes the generator a second time. -/
theorem claim_C9_empty_generation (backend backend2 : BackendBehavior)
    (f f2 : Faults) (st : WorldState) (w src src2 : String) (r : AnalysisResponse)
    (hb : backend = .respond r) (hex : r.is_exists = true)
    (hsyn : r.synonyms = []) (hant : r.antonyms = [])
    (h1 : f.lookupFail = none)
    (hmiss : st.cache.find? (fun x => x.word == normalize w) = none)
    (h4 : f.historyFail = none)
    (h2l : f2.lookupFail = none) :
    analyze_word backend f st w src =
      (⟨some [], none, .completed⟩,
       ⟨st.cache, st.history ++ [⟨src, normalize w⟩], st.genCalls + 1⟩) ∧
    (∀ w2, normalize w2 = normalize w →
      (analyze_word backend2 f2 (analyze_word backend f st w src).2 w2 src2).2.genCalls =
        st.genCalls + 2) := by
  have hg : chains_analyze_word backend (normalize w) = .ok [] := by
    rw [hb]
    simp [chains_analyze_word, hex, hsyn, hant]
  have hrun := miss_gen_empty_reduction backend f st w src h1 hmiss hg h4
  refine ⟨hrun, ?_⟩
  intro w2 hw2
  rw [hrun]
  have hmiss2 : (⟨st.cache, st.history ++ [⟨src, normalize w⟩],
      st.genCalls + 1⟩ : WorldState).cache.find?
      (fun x => x.word == normalize w2) = none := by
    rw [hw2]
    exact hmiss
  rw [genCalls_on_miss backend2 f2 _ w2 src2 h2l hmiss2]

/-- Witness for C9 at a concrete input: «эр» completes with an empty result,
no cache entry is written, and the repeat call «ЭР» invokes the generator
again. -/
theorem claim_C9_empty_generation_witness :
    (([] : List CacheRow).find? (fun x => x.word == normalize "эр") = none) ∧
    analyze_word (.respond ⟨true, [], []⟩) noFaults ⟨[], [], 0⟩ "эр" "api" =
      (⟨some [], none, .completed⟩, ⟨[], [⟨"api", "эр"⟩], 1⟩) ∧
    (analyze_word (.respond ⟨true, [], []⟩) noFaults
        (analyze_word (.respond ⟨true, [], []⟩) noFaults ⟨[], [], 0⟩ "эр" "api").2
        "ЭР" "web").2.genCalls = 2 := by
  have h := claim_C9_empty_generation (.respond ⟨true, [], []⟩)
    (.respond ⟨true, [], []⟩) noFaults noFaults ⟨[], [], 0⟩ "эр" "api" "web"
    ⟨true, [], []⟩ rfl rfl rfl rfl rfl rfl rfl rfl
  refine ⟨rfl, h.1.trans (by decide), ?_⟩
  have h2 := h.2 "ЭР" (by decide)
  simpa using h2

/-- C10: `analyze` is total and shape-stable — the returned dict always has
exactly the fields `result`, `error`, `status` (the `AnalyzeResult` type),
the status is always `COMPLETED` or `FAILED`, and whenever the `try:` body
raised, the dict is `result = None`, `status = FAILED`, `error` the non-null
string the matching `except` clause produces. -/
theorem claim_C10_total_result (backend : BackendBehavior) (f : Faults)
    (st : WorldState) (w src : String) :
    ((analyze_word backend f st w src).1.status = .completed ∨
      (analyze_word backend f st w src).1.status = .failed) ∧
    (∀ e st1, analyze_word_try backend f st (normalize w) src = (.error e, st1) →
      (analyze_word backend f st w src).1 =
        ⟨none, some (handlerError e), .failed⟩) := by
  refine ⟨status_totality backend f st w src, ?_⟩
  intro e st1 h
  rw [analyze_of_try_error backend f st w src e st1 h]

/-- Witness for C10 at a concrete input: a raw storage error during lookup is
caught by the generic `except Exception` clause. -/
theorem claim_C10_total_result_witness :
    analyze_word_try (.respond ⟨true, [], []⟩) ⟨some "conn refused", none, none⟩
        ⟨[], [], 0⟩ (normalize "да") "web" =
      (.error (.other "conn refused"), ⟨[], [], 0⟩) ∧
    ((analyze_word (.respond ⟨true, [], []⟩) ⟨some "conn refused", none, none⟩
        ⟨[], [], 0⟩ "да" "web").1.status = .completed ∨
      (analyze_word (.respond ⟨true, [], []⟩) ⟨some "conn refused", none, none⟩
        ⟨[], [], 0⟩ "да" "web").1.status = .failed) ∧
    (analyze_word (.respond ⟨true, [], []⟩) ⟨some "conn refused", none, none⟩
        ⟨[], [], 0⟩ "да" "web").1 =
      ⟨none, some (handlerError (.other "conn refused")), .failed⟩ := by
  have h := claim_C10_total_result (.respond ⟨true, [], []⟩)
    ⟨some "conn refused", none, none⟩ ⟨[], [], 0⟩ "да" "web"
  exact ⟨rfl, h.1, h.2 (.other "conn refused") ⟨[], [], 0⟩ rfl⟩

end LexiconAI
